import Mathlib

/-!
Verification of the `alchemy` repository (a webhook bot that turns GitHub
issues and PR comments into LLM-generated edits, commits and pull requests).

This file is a shallow embedding of the logic of `src/alchemy/github.py` and
`src/alchemy/loader.py`.  External effects (the GitHub REST API, the LLM
index, the clock, the filesystem) are modelled as explicit inputs, and the
calls the code makes against them are recorded as an event trace.  Python
dynamic errors that the code can actually raise (IndexError, ValueError,
AttributeError, AssertionError) are modelled with `Except`/`Option`.
-/

namespace Alchemy

/-! ## Python string helpers

All string manipulation is implemented by structural recursion over the
character list of the string, so that every definition evaluates by kernel
reduction on concrete inputs. -/

/-- Split a character list at every LF, accumulating the current line in
reverse (the semantics of Python `str.split` on a newline separator). -/
def splitLinesAux : List Char → List Char → List String
  | [], acc => [String.mk acc.reverse]
  | c :: cs, acc =>
    if c = '\n' then String.mk acc.reverse :: splitLinesAux cs []
    else splitLinesAux cs (c :: acc)

/-- Python `str.splitlines`, restricted to LF line breaks (the only break
character in the inputs considered here): the empty string gives `[]`, and a
trailing newline does not produce a trailing empty line. -/
def pySplitlines (s : String) : List String :=
  if s.data.isEmpty then []
  else if s.data.getLast? = some '\n' then (splitLinesAux s.data []).dropLast
  else splitLinesAux s.data []

/-- Python whitespace for `str.strip()`. -/
def pyIsSpace (c : Char) : Bool :=
  c = ' ' || c = '\t' || c = '\n' || c = '\r' || c = '\x0b' || c = '\x0c'

/-- Python `str.strip()` with no argument (strip surrounding whitespace). -/
def pyStrip (s : String) : String :=
  String.mk (((s.data.dropWhile pyIsSpace).reverse.dropWhile pyIsSpace).reverse)

/-- Python `int(s)` on a string of decimal digits (the only use sites pass
regex-guaranteed digit groups, where `int` cannot fail). -/
def pyInt (s : String) : Nat :=
  s.data.foldl (fun n c => n * 10 + (c.toNat - 48)) 0

/-- Python `str.startswith`. -/
def pyStartsWith (s pre : String) : Bool :=
  pre.data.isPrefixOf s.data

/-- Python truthiness of an optional string (`None` and the empty string are falsy). -/
def pyTruthyStr : Option String → Bool
  | none => false
  | some s => !s.data.isEmpty

/-- Python truthiness of an optional list (`None` and `[]` are falsy). -/
def pyTruthyList {α : Type} : Option (List α) → Bool
  | none => false
  | some [] => false
  | some (_ :: _) => true

/-! ## `github.py`: target extraction

`_target_regex` is
`https://github.com/[^/]+/[^/]+/blob/(?P<commit>[^/]+)/(?P<path_str>[^#]+)#L(?P<start>\d+)(?:-L(?P<end>\d+))?`
used with `re.match`, i.e. anchored at the start of the line (no anchoring at
the end).  Each `[^c]+` group is immediately followed by its own excluded
delimiter (or by a literal that starts with it), so greedy matching with
backtracking is deterministic here: every `[^c]+` group must match exactly
the maximal run of characters different from `c`, and `\d+` the maximal run
of digits.  The embedding below is therefore a straight-line anchored parser.
`\d` is modelled as an ASCII digit. -/

/-- Consume a literal prefix, returning the rest of the input. -/
def dropLit : List Char → List Char → Option (List Char)
  | [], cs => some cs
  | _ :: _, [] => none
  | l :: ls, c :: cs => if c = l then dropLit ls cs else none

/-- Consume a maximal nonempty run of characters satisfying `p`
(the semantics of a greedy `[...]+` followed by a character it excludes). -/
def takeWhile1 (p : Char → Bool) (cs : List Char) : Option (List Char × List Char) :=
  match cs.takeWhile p with
  | [] => none
  | t => some (t, cs.dropWhile p)

/-- The four capture groups of `_target_regex`, in `groups()` order.
The Python group named `end` is called `endOpt` here (`end` is reserved). -/
structure TargetGroups where
  commit : String
  path_str : String
  start : String
  endOpt : Option String
deriving Repr, DecidableEq

/-- Model of `_target_regex.match(line)`: `None` when the line does not start with a
blob-permalink URL, otherwise the captured groups. -/
def targetRegexMatch (line : String) : Option TargetGroups :=
  (dropLit "https://github.com/".data line.data).bind fun r1 =>
  (takeWhile1 (fun c => c ≠ '/') r1).bind fun ow =>
  (dropLit ['/'] ow.2).bind fun r2 =>
  (takeWhile1 (fun c => c ≠ '/') r2).bind fun rp =>
  (dropLit "/blob/".data rp.2).bind fun r3 =>
  (takeWhile1 (fun c => c ≠ '/') r3).bind fun cm =>
  (dropLit ['/'] cm.2).bind fun r4 =>
  (takeWhile1 (fun c => c ≠ '#') r4).bind fun pa =>
  (dropLit "#L".data pa.2).bind fun r5 =>
  (takeWhile1 Char.isDigit r5).bind fun st =>
  let e := (dropLit "-L".data st.2).bind fun r6 =>
    (takeWhile1 Char.isDigit r6).map fun en => String.mk en.1
  some ⟨String.mk cm.1, String.mk pa.1, String.mk st.1, e⟩

/-- Model of `EditTarget` from `github.py` (the `path : Path` field is kept as the
string the regex captured). -/
structure EditTarget where
  path : String
  commit : String
  block : Nat × Nat
deriving Repr, DecidableEq

/-- The loop body of `_get_targets_from_body` lines 67-70:
`start = int(start)`, `end = int(end) if end else start + 1`,
`yield EditTarget(Path(path_str), commit, (start, end))`.
The `end` group is nonempty whenever it matched, so its Python truthiness
coincides with presence. -/
def mkEditTarget (g : TargetGroups) : EditTarget :=
  let s := pyInt g.start
  let e := match g.endOpt with
    | some es => pyInt es
    | none => s + 1
  ⟨g.path_str, g.commit, (s, e)⟩

/-- Model of `_get_targets_from_body`: for each line of the body, yield a target when
`_target_regex.match(line)` succeeds (the generator is materialised as a
list). -/
def get_targets_from_body (haystack : String) : List EditTarget :=
  (pySplitlines haystack).filterMap fun line =>
    (targetRegexMatch line).map mkEditTarget

/-! ## `github.py`: the freeform response-splitting loop

`_make_freeform_changes` lines 119-126 split the LLM response into
`OutputFile(path, content)` records.  `OutputFile` is a `namedtuple`, so the
`else` branch, which appends the newline-terminated line to the content
field of `output_files[-1]`, raises:
`IndexError` when `output_files` is empty, and otherwise `AttributeError`
(a namedtuple field cannot be assigned).  The marker branch unpacks
`line.split` on the marker into exactly two names, raising `ValueError` when the
marker occurs more than once in the line. -/

/-- The Python dynamic errors this code can raise. -/
inductive PyError where
  | valueError
  | indexError
  | attributeError
  | assertionError
deriving Repr, DecidableEq

/-- Model of `_RESP_PATH_PREFIX` from the source. -/
def RESP_PATH_MARKER : String := "%%%"

/-- Python `str.split` on the three-percent marker `_RESP_PATH_PREFIX`
(non-overlapping occurrences, scanned left to right). -/
def splitOnMarker : List Char → List Char → List String
  | '%' :: '%' :: '%' :: cs, acc => String.mk acc.reverse :: splitOnMarker cs []
  | c :: cs, acc => splitOnMarker cs (c :: acc)
  | [], acc => [String.mk acc.reverse]

/-- One iteration of the splitting loop of `_make_freeform_changes`
(lines 121-126), faithful to Python semantics, including the errors the
statements raise. -/
def splitRespLine (acc : List (String × String)) (line : String) :
    Except PyError (List (String × String)) :=
  if pyStartsWith line RESP_PATH_MARKER then
    match splitOnMarker line.data [] with
    | [_, key] => .ok (acc ++ [(pyStrip key, "")])
    | _ => .error .valueError
  else
    match acc with
    | [] => .error .indexError
    | _ => .error .attributeError

/-- The whole splitting loop: the first raised error aborts the loop and
propagates. -/
def splitResponse (resp : String) : Except PyError (List (String × String)) :=
  (pySplitlines resp).foldlM splitRespLine []

/-- Append a line (plus a newline) to the content of the most recently
started pair; `none` when no pair has been started yet. -/
def appendToLast : List (String × String) → String → Option (List (String × String))
  | [], _ => none
  | [(p, c)], line => some [(p, c ++ line ++ "\n")]
  | x :: y :: xs, line => (appendToLast (y :: xs) line).map (x :: ·)

/-- The splitting step as claim C2 words it (a marker line starts a new pair
whose path is the rest of the line stripped of whitespace; every other line
is appended, newline-terminated, to the most recently started pair).  This
is the spec-side definition to compare `splitResponse` against. -/
def splitResponseClaim (resp : String) : Option (List (String × String)) :=
  (pySplitlines resp).foldlM (fun acc line =>
    if pyStartsWith line RESP_PATH_MARKER then
      some (acc ++ [(pyStrip (String.mk (line.data.drop RESP_PATH_MARKER.data.length)), "")])
    else appendToLast acc line) []

/-! ## `github.py`: git-write trace model

The GitHub REST calls that modify repository state are recorded as an event
trace.  External inputs (the LLM response, the head commit the first file
write is based on, whether the branch ref already exists) are parameters.
Commit SHAs are modelled as consecutive `Nat` identities handed out by the
API, starting at an arbitrary fresh id.

The orchestration functions below follow the statement-level
dataflow.  The source was never run and carries several call-site slips
that would raise `TypeError`/`SyntaxError` at the Python level
(`EditCommand(**cmd_opts, t)`, the `cmd=` keyword for the `command` field,
`_make_changes(cmd)` called with one argument, iterating a bare
`EditCommand` when no targets exist, and `_create_or_update_branch(repo,
branch, ...)` with three arguments); the model passes the evidently
intended arguments and keeps the body of each callee faithful. -/

/-- Repository-state-changing GitHub API calls. -/
inductive GitEvent where
  | createCommit (id parentId : Nat) (path content : String)
  | setRef (branch : String) (commitId : Nat)
  | createPull (title body base head : String)
  | replyComment (commitId body : String)
deriving Repr, DecidableEq

/-- Is the event a `create_pull` call? -/
def GitEvent.isPull : GitEvent → Bool
  | .createPull _ _ _ _ => true
  | _ => false

/-- Model of `_create_or_update_branch`: when the ref exists it is edited, and then
the ref is (unconditionally) created; both calls point the branch at
`commitId`. -/
def create_or_update_branch (branch : String) (refExists : Bool) (commitId : Nat) :
    List GitEvent :=
  (if refExists then [.setRef branch commitId] else []) ++ [.setRef branch commitId]

/-- Model of `_update_file_content`: a commit whose parent is the given one, or the
branch-head commit `baseCommitId` when no parent is given; returns the event
and the id of the new commit. -/
def update_file_content (baseCommitId freshId : Nat) (path content : String)
    (parent : Option Nat) : GitEvent × Nat :=
  (.createCommit freshId (parent.getD baseCommitId) path content, freshId)

/-- The commit loop of `_make_freeform_changes` lines 128-131: each file is
committed with the previous commit as parent (`prev_commit`), and the branch
ref is advanced to it; after the first iteration the ref exists. -/
def commitLoop (branch : String) (baseCommitId : Nat) :
    List (String × String) → Option Nat → Nat → Bool → List GitEvent
  | [], _, _, _ => []
  | (p, c) :: fs, prev, fresh, refEx =>
    (update_file_content baseCommitId fresh p c prev).1 ::
      (create_or_update_branch branch refEx (update_file_content baseCommitId fresh p c prev).2 ++
        commitLoop branch baseCommitId fs (some fresh) (fresh + 1) true)

/-- Model of `_make_freeform_changes` after the LLM query: split the response, then
run the commit loop.  A raised split error propagates before any git call
happens, so the trace is empty in that case. -/
def make_freeform_changes (branch : String) (baseCommitId : Nat) (refExists : Bool)
    (resp : String) : List GitEvent × Option PyError :=
  match splitResponse resp with
  | .error e => ([], some e)
  | .ok files => (commitLoop branch baseCommitId files none 0 refExists, none)

/-- Model of `_make_targeted_changes` is `pass`: it performs nothing. -/
def make_targeted_changes : List GitEvent := []

/-- Model of `_make_changes`: dispatch on the truthiness of `cmd.targets`. -/
def make_changes (branch : String) (baseCommitId : Nat) (refExists : Bool)
    (resp : String) (targets : Option (List EditTarget)) :
    List GitEvent × Option PyError :=
  if pyTruthyList targets then (make_targeted_changes, none)
  else make_freeform_changes branch baseCommitId refExists resp

/-- Model of `handle_issues_opened`: assert the body, number and title are truthy,
build one command per extracted target (or a single freeform command when
there are none), run them, then open the pull request. -/
def handle_issues_opened (defaultBranch : String) (baseCommitId : Nat) (refExists : Bool)
    (title : String) (number : Nat) (body resp : String) :
    List GitEvent × Option PyError :=
  if body = "" ∨ number = 0 ∨ title = "" then ([], some .assertionError)
  else
    match get_targets_from_body body with
    | _ :: _ =>
      ([.createPull title ("Closes #" ++ toString number) defaultBranch
          ("bot/issue-" ++ toString number)], none)
    | [] =>
      match make_changes ("bot/issue-" ++ toString number) baseCommitId refExists resp none with
      | (tr, none) =>
        (tr ++ [.createPull title ("Closes #" ++ toString number) defaultBranch
            ("bot/issue-" ++ toString number)], none)
      | (tr, some e) => (tr, some e)

/-- The fields of a PR-review-comment event that `handle_pr_comment`
reads. -/
structure PrCommentEvent where
  prAuthorId : Nat
  commentAuthorId : Nat
  headRef : String
  start_line : Option Nat
  line : Nat
  commentPath : String
  commentCommitId : String
  commentBody : String
  prNumber : Nat
deriving Repr, DecidableEq

/-- Model of the expression taking `start_line` when truthy, else `line`: Python `or` yields the
second operand when the first is `None` or `0`. -/
def startFrom (startLine : Option Nat) (line : Nat) : Nat :=
  match startLine with
  | some n => if n = 0 then line else n
  | none => line

/-- Model of `handle_pr_comment`: the two assertions guard everything; on success a
targeted edit command is dispatched and a review-comment reply is posted.
(`REPLY_TEMPLATE.format(...)` leaves the %-style template unchanged, so the
reply body is the literal template.) -/
def handle_pr_comment (botUid : Nat) (baseCommitId : Nat) (refExists : Bool)
    (resp : String) (ev : PrCommentEvent) : List GitEvent × Option PyError :=
  if ev.prAuthorId = botUid ∧ ev.commentAuthorId ≠ botUid then
    let target : EditTarget :=
      ⟨ev.commentPath, ev.commentCommitId, (startFrom ev.start_line ev.line, ev.line)⟩
    let mc := make_changes ev.headRef baseCommitId refExists resp (some [target])
    (mc.1 ++ [.replyComment target.commit "Addressed in %s"], mc.2)
  else ([], some .assertionError)

/-! ## `loader.py`: cache naming, staleness, and index loading -/

/-- Model of `GithubRepositoryReader.FilterType`. -/
inductive FilterType where
  | INCLUDE
  | EXCLUDE
deriving Repr, DecidableEq

/-- Model of `RepoOptions` from `loader.py` (defaults included). -/
structure RepoOptions where
  owner : String
  repo : String
  branch : String := "main"
  commit_sha : Option String := none
  filter_directories : Option (List String × FilterType) :=
    some ([".git", ".yarn", "node_modules"], .EXCLUDE)
  filter_file_extensions : Option (List String × FilterType) := some ([".zip"], .EXCLUDE)
  verbose : Bool := true
  concurrent_requests : Nat := 10
deriving Repr, DecidableEq

/-- Model of `CacheOptions` from `loader.py` (defaults included).  `max_age` is an
`int` of seconds; times are modelled as integers. -/
structure CacheOptions where
  path : String := "~/.alchemy"
  force_update : Bool := false
  max_age : Int := 60
deriving Repr, DecidableEq

/-- Model of `_get_cache_name`: an f-string joining owner, repo, and commit_sha
if truthy else branch, with dashes (Python truthiness: `None` and the empty string select the branch). -/
def get_cache_name (repo_opts : RepoOptions) : String :=
  repo_opts.owner ++ "-" ++ repo_opts.repo ++ "-" ++
    (match repo_opts.commit_sha with
     | some sha => if sha.data.isEmpty then repo_opts.branch else sha
     | none => repo_opts.branch)

/-- Model of `Path.expanduser` for the `~`/`~/...` forms (the only ones used). -/
def expanduser (home path : String) : String :=
  if path = "~" then home
  else if pyStartsWith path "~/" then home ++ String.mk (path.data.drop 1)
  else path

/-- Model of `_get_cache_path`: the expanded cache directory joined with the cache
name, suffixed with `.{ext}` when `ext` is truthy. -/
def get_cache_path (home : String) (repo_opts : RepoOptions) (cache_opts : CacheOptions)
    (ext : Option String) : String :=
  let name := get_cache_name repo_opts ++
    (match ext with
     | some e => if e.data.isEmpty then "" else "." ++ e
     | none => "")
  expanduser home cache_opts.path ++ "/" ++ name

/-- Model of `_cache_is_usable`:
`(time.time() - path.stat().st_mtime) < cache_opts.max_age or not
cache_opts.force_update`. -/
def cache_is_usable (now mtime : Int) (cache_opts : CacheOptions) : Bool :=
  (now - mtime < cache_opts.max_age) || !cache_opts.force_update

/-- A file on disk at a cache path: its mtime and its bytes. -/
structure CacheFile where
  mtime : Int
  content : String
deriving Repr, DecidableEq

/-- The docs-cache file holds a pickled document list (`pickle.dumps`
output is never empty, so a present, usable docs cache is always truthy). -/
structure DocsCacheFile where
  mtime : Int
  docs : List String
deriving Repr, DecidableEq

/-- The external state `create_simple_vector_index` interacts with: the
clock, the two cache files (absent or present), and the documents of the repository
 as the GitHub reader would load them. -/
structure World where
  now : Int
  svCache : Option CacheFile
  docsCache : Option DocsCacheFile
  repoDocs : List String
deriving Repr, DecidableEq

/-- Model of `_get_cache`: the bytes of the file when it exists and `_cache_is_usable`
holds, else `None`. -/
def get_cache (file : Option CacheFile) (now : Int) (cache_opts : CacheOptions) :
    Option String :=
  match file with
  | some f => if cache_is_usable now f.mtime cache_opts then some f.content else none
  | none => none

/-- Model of `_load_documents`: the unpickled docs cache when present and usable,
else the documents loaded from GitHub, writing the docs cache (the `Bool`
records that write). -/
def load_documents (w : World) (cache_opts : CacheOptions) : List String × Bool :=
  match w.docsCache with
  | some f =>
    if cache_is_usable w.now f.mtime cache_opts then (f.docs, false) else (w.repoDocs, true)
  | none => (w.repoDocs, true)

/-- The value `create_simple_vector_index` returns: an index deserialized
from a cache string, or one built from documents. -/
inductive Index where
  | loadedFromString (s : String)
  | fromDocuments (docs : List String)
deriving Repr, DecidableEq

/-- Model of `json.dumps(index.save_to_dict())`, abstractly: a serialization of the
built index (its exact form is internal to the library and is irrelevant
here; it is never the empty string). -/
def serializeIndex (docs : List String) : String :=
  "json:" ++ String.intercalate "," docs

/-- The else-branch of `create_simple_vector_index`: build the index from
the loaded documents and write its serialization to the index cache file
(the `Option String` is that write). -/
def buildIndex (w : World) (cache_opts : CacheOptions) : Index × Option String :=
  let docs := (load_documents w cache_opts).1
  (.fromDocuments docs, some (serializeIndex docs))

/-- Model of `create_simple_vector_index` (lines 148-154): on a truthy cache hit,
load the index from the cached string and perform no build and no write;
otherwise build from documents and write the cache before returning. -/
def create_simple_vector_index (w : World) (cache_opts : CacheOptions) :
    Index × Option String :=
  match get_cache w.svCache w.now cache_opts with
  | some cache =>
    if cache.data.isEmpty then buildIndex w cache_opts
    else (.loadedFromString cache, none)
  | none => buildIndex w cache_opts

/-! ## Trace analysis helpers -/

/-- The (id, parent) pairs of the commit-creating events of a trace, in
order. -/
def commitsOf (tr : List GitEvent) : List (Nat × Nat) :=
  tr.filterMap fun e => match e with
    | .createCommit id p _ _ => some (id, p)
    | _ => none

/-- Check that each commit has the previous commit as its parent, the first
one having `base`. -/
def chainFrom (base : Nat) : List (Nat × Nat) → Bool
  | [] => true
  | c :: rest => (c.2 == base) && chainFrom c.1 rest

/-! ## Helper lemmas -/

theorem commitsOf_append (l1 l2 : List GitEvent) :
    commitsOf (l1 ++ l2) = commitsOf l1 ++ commitsOf l2 := by
  simp [commitsOf, List.filterMap_append]

theorem commitsOf_cons_commit (id pid : Nat) (p c : String) (l : List GitEvent) :
    commitsOf (.createCommit id pid p c :: l) = (id, pid) :: commitsOf l := rfl

theorem commitsOf_create_or_update_branch (branch : String) (refEx : Bool) (cid : Nat) :
    commitsOf (create_or_update_branch branch refEx cid) = [] := by
  cases refEx <;> rfl

theorem create_or_update_branch_not_pull (branch : String) (refEx : Bool) (cid : Nat)
    (e : GitEvent) (he : e ∈ create_or_update_branch branch refEx cid) :
    e.isPull = false := by
  cases refEx <;> simp [create_or_update_branch] at he <;> subst he <;> rfl

theorem commitLoop_not_pull (branch : String) (b : Nat) :
    ∀ (files : List (String × String)) (prev : Option Nat) (fresh : Nat) (refEx : Bool)
      (e : GitEvent), e ∈ commitLoop branch b files prev fresh refEx → e.isPull = false := by
  intro files
  induction files with
  | nil => intro prev fresh refEx e he; simp [commitLoop] at he
  | cons f fs ih =>
    intro prev fresh refEx e he
    obtain ⟨p, c⟩ := f
    simp only [commitLoop, update_file_content, List.mem_cons, List.mem_append] at he
    rcases he with he | he | he
    · subst he; rfl
    · exact create_or_update_branch_not_pull branch refEx fresh e he
    · exact ih (some fresh) (fresh + 1) true e he

theorem chainFrom_commitLoop (branch : String) (b : Nat) :
    ∀ (files : List (String × String)) (prev : Option Nat) (fresh : Nat) (refEx : Bool),
      chainFrom (prev.getD b) (commitsOf (commitLoop branch b files prev fresh refEx)) = true := by
  intro files
  induction files with
  | nil => intro prev fresh refEx; rfl
  | cons f fs ih =>
    intro prev fresh refEx
    obtain ⟨p, c⟩ := f
    simp only [commitLoop, update_file_content]
    rw [commitsOf_cons_commit, commitsOf_append, commitsOf_create_or_update_branch,
      List.nil_append]
    simp only [chainFrom, beq_self_eq_true, Bool.true_and]
    simpa using ih (some fresh) (fresh + 1) true

theorem make_changes_no_targets (branch : String) (b : Nat) (refEx : Bool) (resp : String) :
    make_changes branch b refEx resp none = make_freeform_changes branch b refEx resp := rfl

/-- Shape of the trace of `handle_issues_opened`: either nothing happened, or
the trace is a pull-free prefix whose commits chain from the base commit,
followed by exactly one `create_pull` call. -/
theorem handle_issues_opened_shape (defaultBranch title : String)
    (baseCommitId number : Nat) (refExists : Bool) (body resp : String) :
    (handle_issues_opened defaultBranch baseCommitId refExists title number body resp).1 = [] ∨
    ∃ pre, (∀ e ∈ pre, GitEvent.isPull e = false) ∧
      chainFrom baseCommitId (commitsOf pre) = true ∧
      (handle_issues_opened defaultBranch baseCommitId refExists title number body resp).1 =
        pre ++ [.createPull title ("Closes #" ++ toString number) defaultBranch
          ("bot/issue-" ++ toString number)] := by
  unfold handle_issues_opened
  split
  · left; rfl
  · split
    · right
      exact ⟨[], by simp, rfl, rfl⟩
    · split
      case _ tr heq =>
        right
        rw [make_changes_no_targets] at heq
        rcases hs : splitResponse resp with e | files
        · unfold make_freeform_changes at heq
          rw [hs] at heq
          simp at heq
        · unfold make_freeform_changes at heq
          rw [hs] at heq
          simp only [Prod.mk.injEq] at heq
          obtain ⟨htr, -⟩ := heq
          subst htr
          exact ⟨commitLoop ("bot/issue-" ++ toString number) baseCommitId files none 0 refExists,
            commitLoop_not_pull _ _ files none 0 refExists,
            by simpa using chainFrom_commitLoop _ baseCommitId files none 0 refExists,
            rfl⟩
      case _ tr e heq =>
        left
        rw [make_changes_no_targets] at heq
        rcases hs : splitResponse resp with e' | files
        · unfold make_freeform_changes at heq
          rw [hs] at heq
          simp only [Prod.mk.injEq] at heq
          exact heq.1.symm ▸ rfl
        · unfold make_freeform_changes at heq
          rw [hs] at heq
          simp at heq

/-! ## Claim theorems -/

/-- C1: the claim states that the extractor finds every blob-permalink URL
occurring anywhere in the text, in particular one preceded by other text on
the same line.  The code applies `_target_regex.match` to each line, which
anchors the pattern at the start of the line, so a mid-line permalink yields
no target at all; the same permalink at the start of a line does yield its
(path, commit, line-range) target.  This contradicts the documented intent:
the pythex test string in the comment above `_target_regex` contains exactly
such a mid-line permalink as a positive case. -/
theorem c1_midline_permalink_not_extracted :
    get_targets_from_body "see https://github.com/o/r/blob/abc/src/main.py#L3" = [] ∧
    get_targets_from_body "https://github.com/o/r/blob/abc/src/main.py#L3" =
      [⟨"src/main.py", "abc", (3, 4)⟩] := by
  exact ⟨rfl, rfl⟩

/-- C2: the claim describes the splitting of the LLM response into
(path, content) pairs with non-marker lines appended to the content of the
most recently started pair.  `OutputFile` is a `namedtuple`, whose fields
cannot be assigned, so the first non-marker line following a marker line
raises `AttributeError` instead of being appended: on the response with
marker line `%%% a.txt` followed by the line `hello`, the code raises while
the claimed splitting yields the single pair (a.txt, hello plus newline). -/
theorem c2_content_line_raises_attribute_error :
    splitResponse "%%% a.txt\nhello" = .error .attributeError ∧
    splitResponseClaim "%%% a.txt\nhello" = some [("a.txt", "hello\n")] := by
  exact ⟨rfl, rfl⟩

/-- C3: in every trace `handle_issues_opened` can produce, a `create_pull`
event occurs only as the very last event (so every file-write commit and
every branch-ref advance precedes it), and the created commits chain: each
commit has the previous one as its parent, the first one having the
branch-head commit the changes are based on. -/
theorem c3_pull_after_commits
    (defaultBranch title : String) (baseCommitId number : Nat) (refExists : Bool)
    (body resp : String) (k : Nat) (e : GitEvent)
    (hk : (handle_issues_opened defaultBranch baseCommitId refExists title number body resp).1.get? k
      = some e)
    (hp : e.isPull = true) :
    k + 1 =
      (handle_issues_opened defaultBranch baseCommitId refExists title number body resp).1.length ∧
    chainFrom baseCommitId
      (commitsOf
        (handle_issues_opened defaultBranch baseCommitId refExists title number body resp).1) =
      true := by
  rcases handle_issues_opened_shape defaultBranch title baseCommitId number refExists body resp
    with h | ⟨pre, hnp, hchain, h⟩
  · rw [h] at hk; simp at hk
  · rw [h] at hk ⊢
    constructor
    · rcases Nat.lt_or_ge k pre.length with hlt | hge
      · rw [List.get?_append hlt] at hk
        have hmem : e ∈ pre := List.get?_mem hk
        rw [hnp e hmem] at hp
        cases hp
      · rw [List.get?_append_right hge] at hk
        obtain ⟨hlt1, -⟩ := List.get?_eq_some.mp hk
        simp only [List.length_singleton] at hlt1
        have : k = pre.length := by omega
        subst this
        simp
    · rw [commitsOf_append]
      rw [show commitsOf [GitEvent.createPull title ("Closes #" ++ toString number) defaultBranch
        ("bot/issue-" ++ toString number)] = [] from rfl, List.append_nil]
      exact hchain

/-- Witness for C3 at a concrete issue event: a freeform response producing
two commits, with the pull request opened as event index 6 of 7. -/
theorem c3_pull_after_commits_witness :
    6 + 1 = (handle_issues_opened "main" 100 true "T" 7 "do" "%%% a\n%%% b").1.length ∧
    chainFrom 100 (commitsOf (handle_issues_opened "main" 100 true "T" 7 "do" "%%% a\n%%% b").1) =
      true :=
  c3_pull_after_commits "main" "T" 100 7 true "do" "%%% a\n%%% b" 6
    (.createPull "T" "Closes #7" "main" "bot/issue-7") (by rfl) (by rfl)

/-- C4: the claim states the cache is usable only when its mtime age is
strictly below `max_age`.  The code computes `age < max_age or not
force_update`, so with the default `force_update = False` every cache file
is usable regardless of age: at age 60 with `max_age = 60` the code reports
the cache usable while the claim calls it stale.  The intended check is the
conjunction: the field names and the test fixture comment (`force_update=True
... to force a cache update`) show `force_update` is meant to bypass the
cache, which the disjunction fails to do. -/
theorem c4_stale_cache_still_usable :
    cache_is_usable 1000 940 {} = true ∧
    ({} : CacheOptions).force_update = false ∧
    ¬((1000 : Int) - 940 < ({} : CacheOptions).max_age) := by
  refine ⟨rfl, rfl, by decide⟩

/-- C5 counterexample: a usable cached index file exists (it is read by
`_get_cache`), yet `create_simple_vector_index` rebuilds from documents,
because the file is empty and empty bytes are falsy in the walrus test
`if cache := _get_cache(...)`. -/
theorem c5_empty_cache_file_rebuilds :
    cache_is_usable 1000 999 {} = true ∧
    get_cache (some ⟨999, ""⟩) 1000 {} = some "" ∧
    create_simple_vector_index ⟨1000, some ⟨999, ""⟩, none, ["doc"]⟩ {} =
      (.fromDocuments ["doc"], some (serializeIndex ["doc"])) := by
  exact ⟨rfl, rfl, rfl⟩

/-- C5 as amended: when a usable cached index file exists with non-empty
(truthy) contents, the index is loaded from it with no rebuild and no write;
otherwise (no usable cache file, or an empty one) the index is built from
the loaded documents and its serialization is written to the cache file as
part of returning. -/
theorem c5_cache_behaviour_amended (w : World) (cache_opts : CacheOptions) :
    (∀ s, get_cache w.svCache w.now cache_opts = some s → s ≠ "" →
      create_simple_vector_index w cache_opts = (.loadedFromString s, none)) ∧
    ((∀ s, get_cache w.svCache w.now cache_opts = some s → s = "") →
      create_simple_vector_index w cache_opts =
        (.fromDocuments (load_documents w cache_opts).1,
          some (serializeIndex (load_documents w cache_opts).1))) := by
  constructor
  · intro s hs hne
    unfold create_simple_vector_index
    rw [hs]
    have hde : s.data.isEmpty = false := by
      cases s with
      | mk data =>
        cases data with
        | nil => exact absurd rfl hne
        | cons c cs => rfl
    simp [hde]
  · intro hmt
    unfold create_simple_vector_index
    rcases hc : get_cache w.svCache w.now cache_opts with _ | s
    · rfl
    · have : s = "" := hmt s hc
      subst this
      rfl

/-- Witness for C5 as amended: a fresh non-empty cache file is loaded as-is;
with no cache file at all the index is built from documents and the cache
written. -/
theorem c5_cache_behaviour_amended_witness :
    create_simple_vector_index ⟨1000, some ⟨999, "IDX"⟩, none, ["d"]⟩ {} =
      (.loadedFromString "IDX", none) ∧
    create_simple_vector_index ⟨1000, none, none, ["d"]⟩ {} =
      (.fromDocuments (load_documents ⟨1000, none, none, ["d"]⟩ {}).1,
        some (serializeIndex (load_documents ⟨1000, none, none, ["d"]⟩ {}).1)) :=
  ⟨(c5_cache_behaviour_amended ⟨1000, some ⟨999, "IDX"⟩, none, ["d"]⟩ {}).1 "IDX" rfl
      (by decide),
   (c5_cache_behaviour_amended ⟨1000, none, none, ["d"]⟩ {}).2
      (fun s h => Option.noConfusion h)⟩

/-- C6: the cache file name (and hence the cache path, for a fixed cache
directory and extension) is determined by the owner, the repo, and exactly
one of the commit SHA (when truthy) or the branch (when not): two
`RepoOptions` agreeing on owner, repo and commit SHA, and either carrying a
truthy commit SHA or agreeing on the branch, map to the same cache name and
cache path, whatever their other fields are. -/
theorem c6_cache_key (home : String) (ext : Option String) (cache_opts : CacheOptions)
    (r1 r2 : RepoOptions)
    (ho : r1.owner = r2.owner) (hr : r1.repo = r2.repo)
    (hs : r1.commit_sha = r2.commit_sha)
    (hk : pyTruthyStr r1.commit_sha = true ∨ r1.branch = r2.branch) :
    get_cache_name r1 = get_cache_name r2 ∧
    get_cache_path home r1 cache_opts ext = get_cache_path home r2 cache_opts ext := by
  have hname : get_cache_name r1 = get_cache_name r2 := by
    unfold get_cache_name
    rw [ho, hr, hs]
    rcases h2 : r2.commit_sha with _ | sha
    · rcases hk with hk | hb
      · rw [hs, h2] at hk; simp [pyTruthyStr] at hk
      · rw [hb]
    · by_cases he : sha.data.isEmpty
      · rcases hk with hk | hb
        · rw [hs, h2] at hk; simp [pyTruthyStr, he] at hk
        · simp [he, hb]
      · simp [he]
  exact ⟨hname, by unfold get_cache_path; rw [hname]⟩

/-- Witness for C6: two option records differing in branch and verbosity,
with the same truthy commit SHA, give the same cache name and path. -/
theorem c6_cache_key_witness :
    get_cache_name { owner := "o", repo := "r", branch := "b1", commit_sha := some "abc" } = get_cache_name { owner := "o", repo := "r", branch := "b2", commit_sha := some "abc", verbose := false } ∧
    get_cache_path "/h" { owner := "o", repo := "r", branch := "b1", commit_sha := some "abc" } {} (some "sv.idx.json") = get_cache_path "/h" { owner := "o", repo := "r", branch := "b2", commit_sha := some "abc", verbose := false } {} (some "sv.idx.json") :=
  c6_cache_key "/h" (some "sv.idx.json") {} _ _ rfl rfl rfl (Or.inl rfl)

/-- C7: `_make_changes` takes the targeted path exactly when the targets
field is truthy, which happens exactly when the targets list is present and
non-empty; the targeted path performs no repository modification
(`_make_targeted_changes` is `pass`), and in every other case the freeform
path runs. -/
theorem c7_dispatch (branch : String) (baseCommitId : Nat) (refExists : Bool) (resp : String)
    (targets : Option (List EditTarget)) :
    (pyTruthyList targets = true ↔ ∃ l, targets = some l ∧ l ≠ []) ∧
    (pyTruthyList targets = true →
      make_changes branch baseCommitId refExists resp targets = ([], none)) ∧
    (pyTruthyList targets = false →
      make_changes branch baseCommitId refExists resp targets =
        make_freeform_changes branch baseCommitId refExists resp) := by
  refine ⟨?_, ?_, ?_⟩
  · rcases targets with _ | _ | ⟨t, l⟩ <;> simp [pyTruthyList]
  · intro h
    unfold make_changes
    rw [if_pos h]
    rfl
  · intro h
    unfold make_changes
    rw [if_neg]
    rw [h]
    simp

/-- Witness for C7: a one-target command takes the (empty) targeted path; a
command without targets takes the freeform path. -/
theorem c7_dispatch_witness :
    make_changes "b" 0 true "r" (some [⟨"p", "c", (1, 2)⟩]) = ([], none) ∧
    make_changes "b" 0 true "r" none = make_freeform_changes "b" 0 true "r" :=
  ⟨(c7_dispatch "b" 0 true "r" (some [⟨"p", "c", (1, 2)⟩])).2.1 rfl,
   (c7_dispatch "b" 0 true "r" none).2.2 rfl⟩

/-- C8: whenever the first line of the LLM response does not begin with the
marker, the splitting loop fails with `IndexError` (it indexes the last
element of the still-empty pair list), and the freeform pipeline performs no
git call at all, in particular no commit, before failing. -/
theorem c8_first_line_not_marker_fails (resp l : String) (rest : List String)
    (hsplit : pySplitlines resp = l :: rest)
    (hm : pyStartsWith l RESP_PATH_MARKER = false) :
    splitResponse resp = .error .indexError ∧
    ∀ (branch : String) (baseCommitId : Nat) (refExists : Bool),
      make_freeform_changes branch baseCommitId refExists resp = ([], some .indexError) := by
  have h1 : splitResponse resp = .error .indexError := by
    unfold splitResponse
    rw [hsplit]
    simp only [List.foldlM, splitRespLine, hm, Bool.false_eq_true, if_false]
    rfl
  refine ⟨h1, fun branch b refEx => ?_⟩
  unfold make_freeform_changes
  rw [h1]

/-- Witness for C8: the one-line response `hello`. -/
theorem c8_first_line_not_marker_fails_witness :
    splitResponse "hello" = .error .indexError ∧
    ∀ (branch : String) (baseCommitId : Nat) (refExists : Bool),
      make_freeform_changes branch baseCommitId refExists "hello" = ([], some .indexError) :=
  c8_first_line_not_marker_fails "hello" "hello" [] rfl rfl

/-- C9: `handle_pr_comment` proceeds exactly when the pull request author is
the bot and the comment author is not: when either condition fails it
returns an `AssertionError` with an empty trace (no edit, no commit, no
reply); when both hold it dispatches the targeted edit (which performs
nothing) and posts the reply. -/
theorem c9_pr_comment_guard (botUid baseCommitId : Nat) (refExists : Bool)
    (resp : String) (ev : PrCommentEvent) :
    (¬(ev.prAuthorId = botUid ∧ ev.commentAuthorId ≠ botUid) →
      handle_pr_comment botUid baseCommitId refExists resp ev = ([], some .assertionError)) ∧
    ((ev.prAuthorId = botUid ∧ ev.commentAuthorId ≠ botUid) →
      handle_pr_comment botUid baseCommitId refExists resp ev =
        ([.replyComment ev.commentCommitId "Addressed in %s"], none)) := by
  constructor
  · intro h
    unfold handle_pr_comment
    rw [if_neg h]
  · intro h
    unfold handle_pr_comment
    rw [if_pos h]
    rfl

/-- Witness for C9: the guard rejects a PR not authored by the bot, and
accepts a bot PR commented on by someone else. -/
theorem c9_pr_comment_guard_witness :
    handle_pr_comment 5 100 true "r" ⟨4, 6, "br", none, 3, "p", "c1", "b", 1⟩ =
      ([], some .assertionError) ∧
    handle_pr_comment 5 100 true "r" ⟨5, 6, "br", none, 3, "p", "c1", "b", 1⟩ =
      ([.replyComment "c1" "Addressed in %s"], none) :=
  ⟨(c9_pr_comment_guard 5 100 true "r" ⟨4, 6, "br", none, 3, "p", "c1", "b", 1⟩).1
      (by simp),
   (c9_pr_comment_guard 5 100 true "r" ⟨5, 6, "br", none, 3, "p", "c1", "b", 1⟩).2
      (by simp)⟩

/-- C10: every target the extractor yields comes from a matched line of the
body, its line range starts at the start line the URL names, and equals
(start, end) when the URL names an end line and (start, start + 1) when it
does not. -/
theorem c10_extracted_line_range (body : String) (t : EditTarget)
    (ht : t ∈ get_targets_from_body body) :
    ∃ line ∈ pySplitlines body, ∃ g, targetRegexMatch line = some g ∧
      t = mkEditTarget g ∧ t.block.1 = pyInt g.start ∧
      (∀ es, g.endOpt = some es → t.block = (pyInt g.start, pyInt es)) ∧
      (g.endOpt = none → t.block = (pyInt g.start, pyInt g.start + 1)) := by
  unfold get_targets_from_body at ht
  rw [List.mem_filterMap] at ht
  obtain ⟨line, hline, hmap⟩ := ht
  rw [Option.map_eq_some'] at hmap
  obtain ⟨g, hg, hmk⟩ := hmap
  subst hmk
  refine ⟨line, hline, g, hg, rfl, ?_, ?_, ?_⟩
  · rcases he : g.endOpt with _ | es <;> simp [mkEditTarget, he]
  · intro es he; simp [mkEditTarget, he]
  · intro he; simp [mkEditTarget, he]

/-- Witness for C10 on a body with one two-line-range permalink. -/
theorem c10_extracted_line_range_witness :
    ∃ line ∈ pySplitlines "https://github.com/o/r/blob/abc/f.c#L2-L9", ∃ g,
      targetRegexMatch line = some g ∧
      (⟨"f.c", "abc", (2, 9)⟩ : EditTarget) = mkEditTarget g ∧
      (⟨"f.c", "abc", (2, 9)⟩ : EditTarget).block.1 = pyInt g.start ∧
      (∀ es, g.endOpt = some es →
        (⟨"f.c", "abc", (2, 9)⟩ : EditTarget).block = (pyInt g.start, pyInt es)) ∧
      (g.endOpt = none →
        (⟨"f.c", "abc", (2, 9)⟩ : EditTarget).block = (pyInt g.start, pyInt g.start + 1)) :=
  c10_extracted_line_range "https://github.com/o/r/blob/abc/f.c#L2-L9" ⟨"f.c", "abc", (2, 9)⟩
    (by decide)

end Alchemy
